import Mathlib

/-!
Verification development for the SASHIMI topological feature extractor
(`src/features/topological.py`).  The Python module is shallowly embedded:
pure numeric code becomes Lean functions over `ℝ` / `EReal` (floats with
`inf` are modelled as extended reals, `np.nan` as the `none` value of an
`Option`), the external library calls (scipy KDE, gudhi complex builders
and samplers) become oracle parameters, and Python dictionaries become
insertion-ordered association lists.
-/

namespace TopoFeature

/-- A 2-D point: floating-point coordinates modelled as reals. -/
abbrev Point := ℝ × ℝ

/-- One persistence-diagram entry as returned by gudhi:
(homology dimension, (birth, death)), where birth and death are floats,
possibly infinite. -/
abbrev PersInterval := ℕ × EReal × EReal

/-! ### PointLoader: `read_img` (lines 55–61) -/

/-- Model of `read_img`.  The input table is the list of rows of the file,
each row already split into its three cells (x, y, type).
`pd.read_csv(img_dir)` is called with the default `header='infer'` and no
`names`, so pandas consumes the FIRST row of the file as the column header;
`df.columns = ['x', 'y', 'type']` afterwards only renames the columns.  The
remaining rows give the points (columns 0–1) and the labels (column 2),
positionally. -/
def read_img (table : List (ℝ × ℝ × String)) : List Point × List String :=
  (table.tail.map (fun r => (r.1, r.2.1)), table.tail.map (fun r => r.2.2))

/-! ### SignedDistanceField: `compute_cubical_complex_pair` (lines 109–158)

The class map is a grid of type indices; a grid of shape r × c is modelled
as a function on `ℕ × ℕ` read at the cells `(i, j)` with `i < r`, `j < c`. -/

/-- All cells of an r × c grid, row-major as in the flattened numpy array. -/
def cellList (r c : ℕ) : List (ℕ × ℕ) :=
  (List.range r).flatMap (fun i => (List.range c).map (fun j => (i, j)))

/-- Squared Euclidean distance between two grid cells (an exact natural). -/
def sqDist (a b : ℕ × ℕ) : ℕ :=
  ((a.1 : ℤ) - (b.1 : ℤ)).natAbs ^ 2 + ((a.2 : ℤ) - (b.2 : ℤ)).natAbs ^ 2

/-- Minimum squared distance from `x` to a cell of the list (0 if empty). -/
def minSqOver (x : ℕ × ℕ) : List (ℕ × ℕ) → ℕ
  | [] => 0
  | z :: zs => (zs.map (sqDist x)).foldl min (sqDist x z)

/-- Model of `scipy.ndimage.distance_transform_bf(input, metric='euclidean')`
on an r × c grid: the value at a cell is the exact Euclidean distance to the
nearest zero cell of `input`.  At a zero cell this is 0 (the cell itself is
at distance 0).  When `input` has no zero cell at all the library behaviour
is unspecified; the model returns the junk value 0 there. -/
noncomputable def distance_transform_bf (r c : ℕ) (input : ℕ × ℕ → ℕ) (x : ℕ × ℕ) : ℝ :=
  Real.sqrt (minSqOver x ((cellList r c).filter (fun z => input z == 0)))

/-- Binary indicator grid `(class_grid == idx).astype(np.int32)` (lines 137–138). -/
def binaryGrid (class_map : ℕ × ℕ → ℕ) (idx : ℕ) : ℕ × ℕ → ℕ :=
  fun z => if class_map z = idx then 1 else 0

/-- The grid `1 - grid_type2` (line 142); entries of `binaryGrid` are 0/1. -/
def oneMinus (g : ℕ × ℕ → ℕ) : ℕ × ℕ → ℕ :=
  fun z => 1 - g z

/-- `dist_type1 = distance_transform_bf(grid_type1, metric='euclidean')` (line 141). -/
noncomputable def dist_type1 (r c : ℕ) (class_map : ℕ × ℕ → ℕ) (idx1 : ℕ) (x : ℕ × ℕ) : ℝ :=
  distance_transform_bf r c (binaryGrid class_map idx1) x

/-- `dist_type2 = distance_transform_bf(1 - grid_type2, metric='euclidean')` (line 142). -/
noncomputable def dist_type2 (r c : ℕ) (class_map : ℕ × ℕ → ℕ) (idx2 : ℕ) (x : ℕ × ℕ) : ℝ :=
  distance_transform_bf r c (oneMinus (binaryGrid class_map idx2)) x

/-- `sedt3 = dist_type2 - dist_type1` (line 145), before the infinity mask. -/
noncomputable def sedt3 (r c : ℕ) (class_map : ℕ × ℕ → ℕ) (idx1 idx2 : ℕ) (x : ℕ × ℕ) : ℝ :=
  dist_type2 r c class_map idx2 x - dist_type1 r c class_map idx1 x

/-- The signed field after the masking loop (lines 147–150): every cell whose
class is an index in `range(3)` other than `idx1` and `idx2` is overwritten
with `np.inf`; this is the field handed to `gudhi.CubicalComplex`. -/
noncomputable def signedField (r c : ℕ) (class_map : ℕ × ℕ → ℕ) (idx1 idx2 : ℕ)
    (x : ℕ × ℕ) : EReal :=
  if class_map x < 3 ∧ class_map x ≠ idx1 ∧ class_map x ≠ idx2 then ⊤
  else ((sedt3 r c class_map idx1 idx2 x : ℝ) : EReal)

/-- Distance from `x` to the nearest cell satisfying `P` (junk 0 if none). -/
noncomputable def distToNearest (r c : ℕ) (P : ℕ × ℕ → Bool) (x : ℕ × ℕ) : ℝ :=
  Real.sqrt (minSqOver x ((cellList r c).filter P))

/-- The field as the spec describes it: (Euclidean distance from the cell to
the nearest idx2 cell) minus (Euclidean distance from the cell to the
nearest idx1 cell). -/
noncomputable def specSignedField (r c : ℕ) (class_map : ℕ × ℕ → ℕ) (idx1 idx2 : ℕ)
    (x : ℕ × ℕ) : ℝ :=
  distToNearest r c (fun z => class_map z == idx2) x -
    distToNearest r c (fun z => class_map z == idx1) x

/-! ### LandmarkSampler: `compute_witness_complex_pair` (lines 161–211) -/

/-- Points carrying a given label: `points[labels == cell_type]`. -/
def ptsOfLabel (points : List Point) (labels : List String) (lbl : String) : List Point :=
  ((points.zip labels).filter (fun pl => pl.2 == lbl)).map Prod.fst

/-- Sample size before clamping (lines 190–193); Python `int(m/10)` on a
nonnegative value is floor division. -/
def nb_points_pre (n1 n2 : ℕ) : ℕ :=
  if max n1 n2 ≤ 2000 then max n1 n2 / 10 else 200

/-- Sample size after clamping (lines 196–197):
`nb = min(nb, len1, len2); nb = max(nb, 3)`. -/
def nb_points (n1 n2 : ℕ) : ℕ :=
  max (min (nb_points_pre n1 n2) (min n1 n2)) 3

/-- The landmark sample (line 203); `sampler` models
`gudhi.subsampling.pick_n_random_points`. -/
def landmarksOf (sampler : List Point → ℕ → List Point)
    (points : List Point) (labels : List String) (ct1 ct2 : String) : List Point :=
  sampler (ptsOfLabel points labels ct1)
    (nb_points (ptsOfLabel points labels ct1).length (ptsOfLabel points labels ct2).length)

/-- The witness sample (line 204). -/
def witnessesOf (sampler : List Point → ℕ → List Point)
    (points : List Point) (labels : List String) (ct1 ct2 : String) : List Point :=
  sampler (ptsOfLabel points labels ct2)
    (nb_points (ptsOfLabel points labels ct1).length (ptsOfLabel points labels ct2).length)

/-- Model of `compute_witness_complex_pair`.  `witnessPersistence` models the
external `gudhi.EuclideanWitnessComplex(witnesses, landmarks)` followed by
`create_simplex_tree` and `persistence` (it may raise, hence `Except`).  The
Python function returns `[witness_complex, simplex_tree, diag]`; the model
returns the landmark/witness sample (when one was drawn) and the diagram. -/
def compute_witness_complex_pair (sampler : List Point → ℕ → List Point)
    (witnessPersistence : List Point → List Point → Except String (List PersInterval))
    (points : List Point) (labels : List String) (ct1 ct2 : String) :
    Except String (Option (List Point × List Point) × List PersInterval) :=
  if (ptsOfLabel points labels ct1).length < 3 ∨ (ptsOfLabel points labels ct2).length < 3 then
    Except.ok (none, [])
  else
    match witnessPersistence (witnessesOf sampler points labels ct1 ct2)
        (landmarksOf sampler points labels ct1 ct2) with
    | Except.ok diag =>
        Except.ok (some (landmarksOf sampler points labels ct1 ct2,
          witnessesOf sampler points labels ct1 ct2), diag)
    | Except.error e => Except.error e

/-! ### DensityClassifier: `compute_kde` (lines 65–106) -/

/-- `self.ordered_celltype` (line 28). -/
def ordered_celltype : List String := ["immune", "stromal", "tumor"]

/-- Row `i` of the `densities` array at evaluation point `g` (lines 95–101):
the array is initialised with zeros and row `i` is filled with the fitted
KDE of the points of type `i` only when that type has at least one point.
`kde` models the fitted `scipy.stats.gaussian_kde` evaluated at `g` (the
fixed bandwidth factor 0.5 is folded into the oracle). -/
noncomputable def densityAt (kde : List Point → Point → ℝ)
    (points : List Point) (labels : List String) (i : ℕ) (g : Point) : ℝ :=
  match ordered_celltype.get? i with
  | some lbl =>
      if 0 < (ptsOfLabel points labels lbl).length then kde (ptsOfLabel points labels lbl) g
      else 0
  | none => 0

/-- Model of `np.argmax` over a list: index of the first occurrence of the
maximum.  `best` is the running best value, `bi` its index, `i` the index of
the head of the remaining list. -/
noncomputable def npArgmaxAux : List ℝ → ℕ → ℝ → ℕ → ℕ
  | [], _, _, bi => bi
  | v :: vs, i, best, bi =>
      if best < v then npArgmaxAux vs (i + 1) v i else npArgmaxAux vs (i + 1) best bi

/-- `np.argmax` (first maximum; 0 on the empty list, a junk value numpy
rejects with an error). -/
noncomputable def npArgmax : List ℝ → ℕ
  | [] => 0
  | v :: vs => npArgmaxAux vs 1 v 0

/-- Model of `compute_kde` (line 104): the class assigned to a grid cell
with centre `g` is the argmax over the three per-type densities there.  The
Python code evaluates this on the fixed 100 × 100 grid over the unit
square; the model gives the value at an arbitrary evaluation point. -/
noncomputable def compute_kde (kde : List Point → Point → ℝ)
    (points : List Point) (labels : List String) (g : Point) : ℕ :=
  npArgmax ((List.range 3).map (fun i => densityAt kde points labels i g))

/-! ### PersistenceSummarizer: `extract_persistence_stats` (lines 214–309)

Statistic values are modelled as `Option EReal`: `none` is `np.nan` (the
missing marker), `some` a float, with `⊤` / `⊥` for `±inf`. -/

/-- The filtering loop over intervals (lines 257–268): an interval whose
death is infinite (`np.isinf`) is dropped when `exclude_infinite` is true,
otherwise its death is replaced by `max_finite_value` when that is given;
all other intervals keep their (birth, death) pair. -/
noncomputable def retainedPairs (excludeInfinite : Bool) (maxFiniteValue : Option ℝ) :
    List PersInterval → List (EReal × EReal)
  | [] => []
  | i :: rest =>
      if i.2.2 = ⊤ ∨ i.2.2 = ⊥ then
        if excludeInfinite then retainedPairs excludeInfinite maxFiniteValue rest
        else
          match maxFiniteValue with
          | some v => (i.2.1, ((v : ℝ) : EReal)) :: retainedPairs excludeInfinite maxFiniteValue rest
          | none => (i.2.1, i.2.2) :: retainedPairs excludeInfinite maxFiniteValue rest
      else (i.2.1, i.2.2) :: retainedPairs excludeInfinite maxFiniteValue rest

/-- `np.min` over a nonempty list of floats (`none` on the empty list, where
numpy raises). -/
noncomputable def npMin : List EReal → Option EReal
  | [] => none
  | x :: xs => some (xs.foldl min x)

/-- `np.max` over a nonempty list of floats. -/
noncomputable def npMax : List EReal → Option EReal
  | [] => none
  | x :: xs => some (xs.foldl max x)

/-- `np.mean`: `nan` on an empty list or when both `+inf` and `-inf` occur,
`±inf` when only one of them occurs, otherwise the arithmetic mean. -/
noncomputable def npMean (l : List EReal) : Option EReal :=
  if l.isEmpty then none
  else if (⊤ : EReal) ∈ l ∧ (⊥ : EReal) ∈ l then none
  else if (⊤ : EReal) ∈ l then some ⊤
  else if (⊥ : EReal) ∈ l then some ⊥
  else some ((((l.map EReal.toReal).sum / (l.length : ℝ)) : ℝ) : EReal)

/-- `np.std` (population standard deviation): `nan` on an empty list or in
the presence of any infinity. -/
noncomputable def npStd (l : List EReal) : Option EReal :=
  if l.isEmpty ∨ (⊤ : EReal) ∈ l ∨ (⊥ : EReal) ∈ l then none
  else
    some ((Real.sqrt ((((l.map EReal.toReal).map
      (fun x => (x - (l.map EReal.toReal).sum / (l.length : ℝ)) ^ 2)).sum) / (l.length : ℝ)) : ℝ) : EReal)

/-- The thirteen statistic-name suffixes, in the order the source emits them. -/
def statSuffixes : List String :=
  ["_birth_min", "_birth_max", "_birth_mean", "_birth_std",
   "_death_min", "_death_max", "_death_mean", "_death_std",
   "_lifetime_min", "_lifetime_max", "_lifetime_mean", "_lifetime_std",
   "_n_features"]

/-- The all-missing record (lines 236–251 and 292–307): the twelve numeric
fields are `np.nan` and the feature count is 0. -/
def missingStats (pfx : String) : List (String × Option EReal) :=
  [(pfx ++ "_birth_min", none), (pfx ++ "_birth_max", none),
   (pfx ++ "_birth_mean", none), (pfx ++ "_birth_std", none),
   (pfx ++ "_death_min", none), (pfx ++ "_death_max", none),
   (pfx ++ "_death_mean", none), (pfx ++ "_death_std", none),
   (pfx ++ "_lifetime_min", none), (pfx ++ "_lifetime_max", none),
   (pfx ++ "_lifetime_mean", none), (pfx ++ "_lifetime_std", none),
   (pfx ++ "_n_features", some ((0 : ℕ) : EReal))]

/-- Model of `extract_persistence_stats`.  An empty diagram, or a diagram
whose intervals are all filtered away, yields the all-missing record;
otherwise the twelve statistics are computed over the retained births,
deaths and lifetimes, plus the count of retained intervals. -/
noncomputable def extract_persistence_stats (diag : List PersInterval) (pfx : String)
    (excludeInfinite : Bool) (maxFiniteValue : Option ℝ) : List (String × Option EReal) :=
  if diag.isEmpty then missingStats pfx
  else
    let bd := retainedPairs excludeInfinite maxFiniteValue diag
    if bd.isEmpty then missingStats pfx
    else
      let births := bd.map Prod.fst
      let deaths := bd.map Prod.snd
      let lifetimes := List.zipWith (fun d b => d - b) deaths births
      [(pfx ++ "_birth_min", npMin births), (pfx ++ "_birth_max", npMax births),
       (pfx ++ "_birth_mean", npMean births), (pfx ++ "_birth_std", npStd births),
       (pfx ++ "_death_min", npMin deaths), (pfx ++ "_death_max", npMax deaths),
       (pfx ++ "_death_mean", npMean deaths), (pfx ++ "_death_std", npStd deaths),
       (pfx ++ "_lifetime_min", npMin lifetimes), (pfx ++ "_lifetime_max", npMax lifetimes),
       (pfx ++ "_lifetime_mean", npMean lifetimes), (pfx ++ "_lifetime_std", npStd lifetimes),
       (pfx ++ "_n_features", some ((births.length : ℕ) : EReal))]

/-! ### FeaturePipeline: `compute_all_features` (lines 312–383) and
`compute_features_by_dimension` (lines 386–467)

Python dictionaries are modelled as insertion-ordered association lists:
inserting an existing key overwrites it in place, a new key is appended. -/

/-- A record of named statistic values. -/
abbrev StatDict := List (String × Option EReal)

/-- Insert one key/value pair with Python-dict semantics. -/
def dictInsert (d : StatDict) (kv : String × Option EReal) : StatDict :=
  if d.any (fun e => e.1 == kv.1) then d.map (fun e => if e.1 == kv.1 then kv else e)
  else d ++ [kv]

/-- `d.update(kvs)`: insert every pair of `kvs` in order. -/
def dictUpdate (d : StatDict) (kvs : StatDict) : StatDict :=
  kvs.foldl dictInsert d

/-- Dictionary lookup (keys of a dict built by `dictInsert` are unique). -/
def dictLookup (d : StatDict) (k : String) : Option (Option EReal) :=
  (d.find? (fun e => e.1 == k)).map Prod.snd

/-- `self.cell_pairs` (lines 32–36). -/
def cell_pairs : List (String × String) :=
  [("tumor", "immune"), ("tumor", "stromal"), ("immune", "stromal")]

/-- The cubical-complex stats of one pair in `compute_all_features`
(lines 343–359).  `cubOracle` models `compute_cubical_complex_pair` plus the
gudhi persistence computation for the pair (the part of the try-block that
can raise); on failure the pair's stats are those of the empty diagram. -/
noncomputable def cubicalStats (cubOracle : String → String → Except String (List PersInterval))
    (excludeInfinite : Bool) (c1 c2 : String) : StatDict :=
  match cubOracle c1 c2 with
  | Except.ok diag =>
      extract_persistence_stats diag ("cubical_" ++ (c1 ++ "_" ++ c2)) excludeInfinite none
  | Except.error _ =>
      extract_persistence_stats [] ("cubical_" ++ (c1 ++ "_" ++ c2)) excludeInfinite none

/-- The witness-complex stats of one pair in `compute_all_features`
(lines 362–378): the try-block calls `compute_witness_complex_pair`; on
failure the pair's stats are those of the empty diagram. -/
noncomputable def witnessStats (sampler : List Point → ℕ → List Point)
    (witnessPersistence : List Point → List Point → Except String (List PersInterval))
    (points : List Point) (labels : List String)
    (excludeInfinite : Bool) (c1 c2 : String) : StatDict :=
  match compute_witness_complex_pair sampler witnessPersistence points labels c1 c2 with
  | Except.ok r =>
      extract_persistence_stats r.2 ("witness_" ++ (c1 ++ "_" ++ c2)) excludeInfinite none
  | Except.error _ =>
      extract_persistence_stats [] ("witness_" ++ (c1 ++ "_" ++ c2)) excludeInfinite none

/-- Model of `compute_all_features` after `read_img` and `compute_kde` have
succeeded (their outputs are the `points`/`labels` inputs; the class map is
folded into `cubOracle`).  For each pair the cubical stats and then the
witness stats are merged into the accumulating dictionary. -/
noncomputable def compute_all_features
    (cubOracle : String → String → Except String (List PersInterval))
    (sampler : List Point → ℕ → List Point)
    (witnessPersistence : List Point → List Point → Except String (List PersInterval))
    (points : List Point) (labels : List String) (excludeInfinite : Bool) : StatDict :=
  cell_pairs.foldl (fun all_stats pc =>
    dictUpdate (dictUpdate all_stats (cubicalStats cubOracle excludeInfinite pc.1 pc.2))
      (witnessStats sampler witnessPersistence points labels excludeInfinite pc.1 pc.2)) []

/-- Filtering a diagram to one homology dimension (lines 424 and 447). -/
def dimFilter (diag : List PersInterval) (dim : ℕ) : List PersInterval :=
  diag.filter (fun i => i.1 == dim)

/-- The per-dimension cubical stats of one pair in
`compute_features_by_dimension` (lines 419–439), concatenated over the
requested dimensions in order. -/
noncomputable def cubicalDimStats (cubOracle : String → String → Except String (List PersInterval))
    (excludeInfinite : Bool) (c1 c2 : String) (dimensions : List ℕ) : StatDict :=
  match cubOracle c1 c2 with
  | Except.ok diag =>
      dimensions.flatMap (fun dim =>
        extract_persistence_stats (dimFilter diag dim)
          ("cubical_" ++ (c1 ++ "_" ++ c2) ++ "_h" ++ toString dim) excludeInfinite none)
  | Except.error _ =>
      dimensions.flatMap (fun dim =>
        extract_persistence_stats []
          ("cubical_" ++ (c1 ++ "_" ++ c2) ++ "_h" ++ toString dim) excludeInfinite none)

/-- The per-dimension witness stats of one pair in
`compute_features_by_dimension` (lines 442–462). -/
noncomputable def witnessDimStats (sampler : List Point → ℕ → List Point)
    (witnessPersistence : List Point → List Point → Except String (List PersInterval))
    (points : List Point) (labels : List String)
    (excludeInfinite : Bool) (c1 c2 : String) (dimensions : List ℕ) : StatDict :=
  match compute_witness_complex_pair sampler witnessPersistence points labels c1 c2 with
  | Except.ok r =>
      dimensions.flatMap (fun dim =>
        extract_persistence_stats (dimFilter r.2 dim)
          ("witness_" ++ (c1 ++ "_" ++ c2) ++ "_h" ++ toString dim) excludeInfinite none)
  | Except.error _ =>
      dimensions.flatMap (fun dim =>
        extract_persistence_stats []
          ("witness_" ++ (c1 ++ "_" ++ c2) ++ "_h" ++ toString dim) excludeInfinite none)

/-- Model of `compute_features_by_dimension` after `read_img` and
`compute_kde` have succeeded. -/
noncomputable def compute_features_by_dimension
    (cubOracle : String → String → Except String (List PersInterval))
    (sampler : List Point → ℕ → List Point)
    (witnessPersistence : List Point → List Point → Except String (List PersInterval))
    (points : List Point) (labels : List String) (dimensions : List ℕ)
    (excludeInfinite : Bool) : StatDict :=
  cell_pairs.foldl (fun all_stats pc =>
    dictUpdate
      (dictUpdate all_stats (cubicalDimStats cubOracle excludeInfinite pc.1 pc.2 dimensions))
      (witnessDimStats sampler witnessPersistence points labels excludeInfinite pc.1 pc.2
        dimensions)) []

/-! ## Theorems -/

/-- C2 counterexample: on a one-row table the arrays returned by `read_img`
have length 0, not 1 — the first row is consumed by `pd.read_csv` as the
header, contradicting the claim that no input row is consumed as a header. -/
theorem read_img_counterexample :
    ¬ (((read_img [((1 : ℝ), (2 : ℝ), "immune")]).1.length = 1) ∧
      ((read_img [((1 : ℝ), (2 : ℝ), "immune")]).2.length = 1)) := by
  intro h
  simp [read_img] at h

/-- C2 (amended): `read_img` consumes the first row of the input table as a
header row; the returned points and labels arrays have common length
(number of rows − 1), and each remaining row is interpreted positionally as
(x, y, type label). -/
theorem read_img_amended (table : List (ℝ × ℝ × String)) :
    (read_img table).1.length = table.length - 1 ∧
    (read_img table).2.length = table.length - 1 ∧
    (∀ i : ℕ, (read_img table).1.get? i = (table.get? (i + 1)).map (fun r => (r.1, r.2.1))) ∧
    (∀ i : ℕ, (read_img table).2.get? i = (table.get? (i + 1)).map (fun r => r.2.2)) := by
  refine ⟨?_, ?_, ?_, ?_⟩ <;> cases table <;> simp [read_img]

/-- C3: when both labeled subsets have at least 3 points, the landmark and
witness samples drawn by `compute_witness_complex_pair` have the same size
`nb_points n1 n2`; the pre-clamp size is ⌊m/10⌋ for m = max(n1, n2) ≤ 2000
and 200 for m > 2000; and the final size lies between 3 and min(n1, n2). -/
theorem witness_sample_size_rule (sampler : List Point → ℕ → List Point)
    (points : List Point) (labels : List String) (ct1 ct2 : String) (n1 n2 : ℕ)
    (hs : ∀ pts n, n ≤ pts.length → (sampler pts n).length = n)
    (hn1 : (ptsOfLabel points labels ct1).length = n1)
    (hn2 : (ptsOfLabel points labels ct2).length = n2)
    (h1 : 3 ≤ n1) (h2 : 3 ≤ n2) :
    (landmarksOf sampler points labels ct1 ct2).length = nb_points n1 n2 ∧
    (witnessesOf sampler points labels ct1 ct2).length = nb_points n1 n2 ∧
    nb_points_pre n1 n2 = (if max n1 n2 ≤ 2000 then max n1 n2 / 10 else 200) ∧
    3 ≤ nb_points n1 n2 ∧ nb_points n1 n2 ≤ min n1 n2 := by
  have hb1 : 3 ≤ nb_points n1 n2 := le_max_right _ _
  have hb2 : nb_points n1 n2 ≤ min n1 n2 := by
    unfold nb_points
    have : 3 ≤ min n1 n2 := le_min h1 h2
    omega
  refine ⟨?_, ?_, rfl, hb1, hb2⟩
  · unfold landmarksOf
    rw [hn1, hn2]
    exact hs _ _ (by rw [hn1]; omega)
  · unfold witnessesOf
    rw [hn1, hn2]
    exact hs _ _ (by rw [hn2]; omega)

/-- Six labeled points used to instantiate sampling theorems. -/
def samplePts : List Point :=
  [((0 : ℝ), (0 : ℝ)), ((0 : ℝ), (1 : ℝ)), ((1 : ℝ), (0 : ℝ)),
   ((2 : ℝ), (2 : ℝ)), ((2 : ℝ), (3 : ℝ)), ((3 : ℝ), (2 : ℝ))]

/-- Labels for `samplePts`. -/
def sampleLbls : List String :=
  ["immune", "immune", "immune", "stromal", "stromal", "stromal"]

/-- C3 witness: the sampling-size rule evaluated with a concrete take-based
sampler on 3 immune and 3 stromal points. -/
theorem witness_sample_size_rule_witness :
    (landmarksOf (fun pts n => pts.take n) samplePts sampleLbls "immune" "stromal").length =
      nb_points 3 3 ∧
    (witnessesOf (fun pts n => pts.take n) samplePts sampleLbls "immune" "stromal").length =
      nb_points 3 3 ∧
    nb_points_pre 3 3 = (if max 3 3 ≤ 2000 then max 3 3 / 10 else 200) ∧
    3 ≤ nb_points 3 3 ∧ nb_points 3 3 ≤ min 3 3 :=
  witness_sample_size_rule (fun pts n => pts.take n) samplePts sampleLbls "immune" "stromal" 3 3
    (fun pts n h => by simp [List.length_take]; omega) rfl rfl (by norm_num) (by norm_num)

/-- C7: when either labeled subset has fewer than 3 points,
`compute_witness_complex_pair` short-circuits to the empty diagram without
sampling, and summarising that empty diagram yields the fixed record whose
twelve statistics are all missing and whose feature count is 0. -/
theorem insufficient_points_missing_stats (sampler : List Point → ℕ → List Point)
    (wp : List Point → List Point → Except String (List PersInterval))
    (points : List Point) (labels : List String) (ct1 ct2 pfx : String)
    (ex : Bool) (mfv : Option ℝ)
    (h : (ptsOfLabel points labels ct1).length < 3 ∨ (ptsOfLabel points labels ct2).length < 3) :
    compute_witness_complex_pair sampler wp points labels ct1 ct2 = Except.ok (none, []) ∧
    extract_persistence_stats [] pfx ex mfv = missingStats pfx ∧
    (missingStats pfx).map Prod.snd =
      [none, none, none, none, none, none, none, none, none, none, none, none,
        some ((0 : ℕ) : EReal)] := by
  refine ⟨?_, rfl, rfl⟩
  unfold compute_witness_complex_pair
  rw [if_pos h]

/-- C7 witness: an input with a single immune point and no tumor points. -/
theorem insufficient_points_missing_stats_witness :
    compute_witness_complex_pair (fun pts n => pts.take n) (fun _ _ => Except.ok [])
      [((0 : ℝ), (0 : ℝ))] ["immune"] "tumor" "immune" = Except.ok (none, []) ∧
    extract_persistence_stats [] "witness_tumor_immune" true none =
      missingStats "witness_tumor_immune" ∧
    (missingStats "witness_tumor_immune").map Prod.snd =
      [none, none, none, none, none, none, none, none, none, none, none, none,
        some ((0 : ℕ) : EReal)] :=
  insufficient_points_missing_stats (fun pts n => pts.take n) (fun _ _ => Except.ok [])
    [((0 : ℝ), (0 : ℝ))] ["immune"] "tumor" "immune" "witness_tumor_immune" true none
    (Or.inl (by simp [ptsOfLabel, List.filter]))

/-- C4: the infinite-death policy of `extract_persistence_stats`.  With
`exclude_infinite = true` every interval with infinite death is dropped;
with `exclude_infinite = false` and a finite replacement given, infinite
deaths are replaced by it; with neither, deaths are kept unchanged.  On the
diagram [(0, (0.1, ∞))]: excluding infinities yields the all-missing
record; replacing ∞ by 1.0 yields birth_mean 0.1, death_mean 1.0,
lifetime_mean 0.9 and n_features 1. -/
theorem extract_stats_infinite_death_policy :
    (∀ (diag : List PersInterval) (mfv : Option ℝ),
      retainedPairs true mfv diag =
        (diag.filter (fun i => decide (¬ (i.2.2 = ⊤ ∨ i.2.2 = ⊥)))).map
          (fun i => (i.2.1, i.2.2))) ∧
    (∀ (diag : List PersInterval) (v : ℝ),
      retainedPairs false (some v) diag =
        diag.map (fun i =>
          (i.2.1, if i.2.2 = ⊤ ∨ i.2.2 = ⊥ then ((v : ℝ) : EReal) else i.2.2))) ∧
    (∀ diag : List PersInterval,
      retainedPairs false none diag = diag.map (fun i => (i.2.1, i.2.2))) ∧
    extract_persistence_stats [(0, ((0.1 : ℝ) : EReal), ⊤)] "w" true none = missingStats "w" ∧
    dictLookup (extract_persistence_stats [(0, ((0.1 : ℝ) : EReal), ⊤)] "w" false (some 1))
        "w_birth_mean" = some (some ((0.1 : ℝ) : EReal)) ∧
    dictLookup (extract_persistence_stats [(0, ((0.1 : ℝ) : EReal), ⊤)] "w" false (some 1))
        "w_death_mean" = some (some ((1 : ℝ) : EReal)) ∧
    dictLookup (extract_persistence_stats [(0, ((0.1 : ℝ) : EReal), ⊤)] "w" false (some 1))
        "w_lifetime_mean" = some (some ((0.9 : ℝ) : EReal)) ∧
    dictLookup (extract_persistence_stats [(0, ((0.1 : ℝ) : EReal), ⊤)] "w" false (some 1))
        "w_n_features" = some (some ((1 : ℕ) : EReal)) := by
  have hrp1 : ∀ (diag : List PersInterval) (mfv : Option ℝ),
      retainedPairs true mfv diag =
        (diag.filter (fun i => decide (¬ (i.2.2 = ⊤ ∨ i.2.2 = ⊥)))).map
          (fun i => (i.2.1, i.2.2)) := by
    intro diag mfv
    induction diag with
    | nil => rfl
    | cons i rest ih =>
        by_cases hd : i.2.2 = ⊤ ∨ i.2.2 = ⊥
        · rcases hd with h | h <;> simp [retainedPairs, List.filter_cons, h, ih]
        · have h1 := (not_or.mp hd).1
          have h2 := (not_or.mp hd).2
          simp [retainedPairs, List.filter_cons, hd, h1, h2, ih]
  have hrp2 : ∀ (diag : List PersInterval) (v : ℝ),
      retainedPairs false (some v) diag =
        diag.map (fun i =>
          (i.2.1, if i.2.2 = ⊤ ∨ i.2.2 = ⊥ then ((v : ℝ) : EReal) else i.2.2)) := by
    intro diag v
    induction diag with
    | nil => rfl
    | cons i rest ih =>
        by_cases hd : i.2.2 = ⊤ ∨ i.2.2 = ⊥ <;> simp [retainedPairs, hd, ih]
  have hrp3 : ∀ diag : List PersInterval,
      retainedPairs false none diag = diag.map (fun i => (i.2.1, i.2.2)) := by
    intro diag
    induction diag with
    | nil => rfl
    | cons i rest ih =>
        by_cases hd : i.2.2 = ⊤ ∨ i.2.2 = ⊥ <;> simp [retainedPairs, hd, ih]
  have hScenario1 :
      extract_persistence_stats [(0, ((0.1 : ℝ) : EReal), ⊤)] "w" true none = missingStats "w" := by
    unfold extract_persistence_stats
    simp [retainedPairs]
  have hbd : retainedPairs false (some 1) [(0, ((0.1 : ℝ) : EReal), ⊤)] =
      [(((0.1 : ℝ) : EReal), ((1 : ℝ) : EReal))] := by
    simp [retainedPairs]
  have hrec : extract_persistence_stats [(0, ((0.1 : ℝ) : EReal), ⊤)] "w" false (some 1) =
      [("w" ++ "_birth_min", npMin [((0.1 : ℝ) : EReal)]),
       ("w" ++ "_birth_max", npMax [((0.1 : ℝ) : EReal)]),
       ("w" ++ "_birth_mean", npMean [((0.1 : ℝ) : EReal)]),
       ("w" ++ "_birth_std", npStd [((0.1 : ℝ) : EReal)]),
       ("w" ++ "_death_min", npMin [((1 : ℝ) : EReal)]),
       ("w" ++ "_death_max", npMax [((1 : ℝ) : EReal)]),
       ("w" ++ "_death_mean", npMean [((1 : ℝ) : EReal)]),
       ("w" ++ "_death_std", npStd [((1 : ℝ) : EReal)]),
       ("w" ++ "_lifetime_min", npMin [((1 : ℝ) : EReal) - ((0.1 : ℝ) : EReal)]),
       ("w" ++ "_lifetime_max", npMax [((1 : ℝ) : EReal) - ((0.1 : ℝ) : EReal)]),
       ("w" ++ "_lifetime_mean", npMean [((1 : ℝ) : EReal) - ((0.1 : ℝ) : EReal)]),
       ("w" ++ "_lifetime_std", npStd [((1 : ℝ) : EReal) - ((0.1 : ℝ) : EReal)]),
       ("w" ++ "_n_features", some ((1 : ℕ) : EReal))] := by
    unfold extract_persistence_stats
    rw [hbd]
    simp
  have hsub : (1 : EReal) - ((0.1 : ℝ) : EReal) = ((0.9 : ℝ) : EReal) := by
    rw [← EReal.coe_one, ← EReal.coe_sub]
    norm_num
  have hmean : ∀ x : ℝ, npMean [((x : ℝ) : EReal)] = some ((x : ℝ) : EReal) := by
    intro x
    unfold npMean
    simp
  have hmean1 : npMean [(1 : EReal)] = some (1 : EReal) := by
    rw [← EReal.coe_one]
    exact hmean 1
  refine ⟨hrp1, hrp2, hrp3, hScenario1, ?_, ?_, ?_, ?_⟩ <;>
    rw [hrec] <;> simp [dictLookup, hsub, hmean, hmean1]

/-- `np.argmax` over a three-element list, written out: the first index
attaining the maximum. -/
theorem npArgmax_three (a b c : ℝ) :
    npArgmax [a, b, c] =
      if a < b then (if b < c then 2 else 1) else (if a < c then 2 else 0) := by
  by_cases hab : a < b <;> by_cases hbc : b < c <;> by_cases hac : a < c <;>
    simp [npArgmax, npArgmaxAux, hab, hbc, hac]

/-- Each density row is nonnegative when the KDE oracle is. -/
theorem densityAt_nonneg (kde : List Point → Point → ℝ)
    (points : List Point) (labels : List String) (i : ℕ) (g : Point)
    (hkde : ∀ pts g', 0 ≤ kde pts g') : 0 ≤ densityAt kde points labels i g := by
  unfold densityAt
  cases ordered_celltype.get? i with
  | none => simp
  | some lbl =>
      simp only
      split
      · exact hkde _ _
      · exact le_refl 0

/-- C5: for a cell type with zero points the density row of `compute_kde`
is identically zero; a grid cell is assigned that type only when every
type's density vanishes there; and at an all-zero cell the argmax tie-break
assigns the lowest-indexed type, immune = 0. -/
theorem compute_kde_zero_point_type (kde : List Point → Point → ℝ)
    (points : List Point) (labels : List String) (t : ℕ) (lbl : String)
    (hkde : ∀ pts g', 0 ≤ kde pts g')
    (hlbl : ordered_celltype.get? t = some lbl)
    (hempty : ptsOfLabel points labels lbl = []) (g : Point) :
    densityAt kde points labels t g = 0 ∧
    (compute_kde kde points labels g = t →
      ∀ s, s < 3 → densityAt kde points labels s g = 0) ∧
    ((∀ s, s < 3 → densityAt kde points labels s g = 0) →
      compute_kde kde points labels g = 0) := by
  have ht3 : t < 3 := by
    by_contra h
    rw [List.get?_eq_none.mpr (by simp [ordered_celltype]; omega)] at hlbl
    exact Option.noConfusion hlbl
  have hdt : densityAt kde points labels t g = 0 := by
    unfold densityAt
    rw [hlbl]
    simp [hempty]
  have hmap : (List.range 3).map (fun i => densityAt kde points labels i g) =
      [densityAt kde points labels 0 g, densityAt kde points labels 1 g,
        densityAt kde points labels 2 g] := by
    rfl
  have hck : compute_kde kde points labels g =
      npArgmax [densityAt kde points labels 0 g, densityAt kde points labels 1 g,
        densityAt kde points labels 2 g] := by
    unfold compute_kde
    rw [hmap]
  refine ⟨hdt, ?_, ?_⟩
  · intro hcm s hs
    set a := densityAt kde points labels 0 g with ha
    set b := densityAt kde points labels 1 g with hb
    set c := densityAt kde points labels 2 g with hc
    have h0 : 0 ≤ a := densityAt_nonneg kde points labels 0 g hkde
    have h1 : 0 ≤ b := densityAt_nonneg kde points labels 1 g hkde
    have h2 : 0 ≤ c := densityAt_nonneg kde points labels 2 g hkde
    rw [hck, npArgmax_three] at hcm
    have habc : a = 0 ∧ b = 0 ∧ c = 0 := by
      interval_cases t
      · have ha0 : a = 0 := hdt
        by_cases hab : a < b
        · exfalso
          by_cases hbc : b < c <;> simp [hab, hbc] at hcm
        · by_cases hac : a < c
          · exfalso
            simp [hab, hac] at hcm
          · refine ⟨ha0, ?_, ?_⟩ <;> push_neg at hab hac <;> nlinarith
      · have hb0 : b = 0 := hdt
        by_cases hab : a < b
        · exfalso
          nlinarith
        · exfalso
          by_cases hac : a < c <;> simp [hab, hac] at hcm
      · have hc0 : c = 0 := hdt
        by_cases hab : a < b
        · by_cases hbc : b < c
          · exfalso
            nlinarith
          · exfalso
            simp [hab, hbc] at hcm
        · by_cases hac : a < c
          · exfalso
            nlinarith
          · exfalso
            simp [hab, hac] at hcm
    interval_cases s
    · exact habc.1
    · exact habc.2.1
    · exact habc.2.2
  · intro hall
    rw [hck]
    rw [hall 0 (by omega), hall 1 (by omega), hall 2 (by omega), npArgmax_three]
    simp

/-- C5 witness: a point set with one immune point and no stromal points,
with a constant nonnegative KDE oracle; the stromal density vanishes and an
all-zero cell is classified as immune (index 0). -/
theorem compute_kde_zero_point_type_witness :
    densityAt (fun _ _ => 1) [((0 : ℝ), (0 : ℝ))] ["immune"] 1 ((0 : ℝ), (0 : ℝ)) = 0 ∧
    ((∀ s, s < 3 →
        densityAt (fun _ _ => 1) [((0 : ℝ), (0 : ℝ))] ["immune"] s ((0 : ℝ), (0 : ℝ)) = 0) →
      compute_kde (fun _ _ => 1) [((0 : ℝ), (0 : ℝ))] ["immune"] ((0 : ℝ), (0 : ℝ)) = 0) := by
  have h := compute_kde_zero_point_type (fun _ _ => 1) [((0 : ℝ), (0 : ℝ))] ["immune"] 1
    "stromal" (fun _ _ => zero_le_one) (by simp [ordered_celltype])
    (by simp [ptsOfLabel, List.filter]) ((0 : ℝ), (0 : ℝ))
  exact ⟨h.1, h.2.2⟩

/-- A 2 × 2 class map: column 0 is type 0, column 1 is type 1. -/
def cmEx : ℕ × ℕ → ℕ := fun z => if z.2 = 0 then 0 else 1

/-- C1 counterexample: on the 2 × 2 class map `cmEx` with idx1 = 0, idx2 = 1,
the field computed by `compute_cubical_complex_pair` differs at cell (0, 1)
from the claimed (distance-to-nearest-idx2 − distance-to-nearest-idx1):
the code computes 0 there while the claimed field is −1, because
`distance_transform_bf(grid_type1)` measures distance to the nearest
NON-idx1 cell, not to the nearest idx1 cell. -/
theorem sedt3_counterexample :
    sedt3 2 2 cmEx 0 1 (0, 1) ≠ specSignedField 2 2 cmEx 0 1 (0, 1) := by
  have hA : minSqOver (0, 1)
      ((cellList 2 2).filter (fun z => oneMinus (binaryGrid cmEx 1) z == 0)) = 0 := by decide
  have hB : minSqOver (0, 1)
      ((cellList 2 2).filter (fun z => binaryGrid cmEx 0 z == 0)) = 0 := by decide
  have hC : minSqOver (0, 1) ((cellList 2 2).filter (fun z => cmEx z == 1)) = 0 := by decide
  have hD : minSqOver (0, 1) ((cellList 2 2).filter (fun z => cmEx z == 0)) = 1 := by decide
  unfold sedt3 dist_type1 dist_type2 specSignedField distToNearest distance_transform_bf
  rw [hA, hB, hC, hD]
  simp [Real.sqrt_zero, Real.sqrt_one]

/-- C1 (amended): at every grid cell the pre-mask field `sedt3` equals the
Euclidean distance to the nearest idx2 cell minus the Euclidean distance to
the nearest cell NOT of type idx1 (both distances under the convention that
an empty target set gives 0). -/
theorem sedt3_dist_formula (r c : ℕ) (cm : ℕ × ℕ → ℕ) (idx1 idx2 : ℕ) (x : ℕ × ℕ) :
    sedt3 r c cm idx1 idx2 x =
      distToNearest r c (fun z => cm z == idx2) x -
        distToNearest r c (fun z => !(cm z == idx1)) x := by
  unfold sedt3 dist_type1 dist_type2 distance_transform_bf distToNearest
  have h2 : (fun z => oneMinus (binaryGrid cm idx2) z == 0) = (fun z => cm z == idx2) := by
    funext z
    by_cases h : cm z = idx2 <;> simp [oneMinus, binaryGrid, h]
  have h1 : (fun z => binaryGrid cm idx1 z == 0) = (fun z => !(cm z == idx1)) := by
    funext z
    by_cases h : cm z = idx1 <;> simp [binaryGrid, h]
  rw [h2, h1]

/-- C6: in the masked signed field, a cell whose class is neither idx1 nor
idx2 holds +∞, and a cell of class idx1 or idx2 holds a finite value. -/
theorem signedField_infinity_mask (r c : ℕ) (cm : ℕ × ℕ → ℕ) (idx1 idx2 : ℕ)
    (h12 : idx1 ≠ idx2) (hcm : ∀ y, cm y < 3) (x : ℕ × ℕ) :
    (cm x ≠ idx1 ∧ cm x ≠ idx2 → signedField r c cm idx1 idx2 x = ⊤) ∧
    (cm x = idx1 ∨ cm x = idx2 →
      signedField r c cm idx1 idx2 x ≠ ⊤ ∧ signedField r c cm idx1 idx2 x ≠ ⊥) := by
  constructor
  · intro h
    unfold signedField
    rw [if_pos ⟨hcm x, h.1, h.2⟩]
  · intro h
    unfold signedField
    rw [if_neg]
    · exact ⟨EReal.coe_ne_top _, EReal.coe_ne_bot _⟩
    · rcases h with h | h <;> simp [h]

/-- A 4 × 4 class map using all three type indices. -/
def cmEx3 : ℕ × ℕ → ℕ := fun z => (z.1 + z.2) % 3

/-- C6 witness: on `cmEx3` with the pair (0, 1), the cell (2, 0) has class
2 and is masked to +∞. -/
theorem signedField_infinity_mask_witness :
    signedField 4 4 cmEx3 0 1 (2, 0) = ⊤ :=
  (signedField_infinity_mask 4 4 cmEx3 0 1 (by decide)
    (fun y => Nat.mod_lt _ (by decide)) (2, 0)).1 ⟨by decide, by decide⟩

/-- Summarising the empty diagram always yields the all-missing record. -/
theorem extract_nil (pfx : String) (ex : Bool) (mfv : Option ℝ) :
    extract_persistence_stats [] pfx ex mfv = missingStats pfx := rfl

/-- The key list of a statistics record depends only on the prefix. -/
theorem extract_keys (diag : List PersInterval) (pfx : String) (ex : Bool) (mfv : Option ℝ) :
    (extract_persistence_stats diag pfx ex mfv).map Prod.fst =
      statSuffixes.map (fun s => pfx ++ s) := by
  unfold extract_persistence_stats
  by_cases h1 : diag.isEmpty = true
  · rw [if_pos h1]
    rfl
  · rw [if_neg h1]
    by_cases h2 : (retainedPairs ex mfv diag).isEmpty = true
    · simp only [h2, if_true]
      rfl
    · simp only [h2, if_false]
      rfl

/-- Inserting a key that is not yet in the dictionary appends it. -/
theorem dictInsert_fresh (d : StatDict) (kv : String × Option EReal)
    (h : kv.1 ∉ d.map Prod.fst) : dictInsert d kv = d ++ [kv] := by
  unfold dictInsert
  have hany : d.any (fun e => e.1 == kv.1) = false := by
    rw [List.any_eq_false]
    intro e he
    simp only [beq_iff_eq]
    exact fun heq => h (List.mem_map.mpr ⟨e, he, heq⟩)
  simp [hany]

/-- Updating with a batch of fresh, mutually distinct keys appends the batch. -/
theorem dictUpdate_fresh (kvs : StatDict) :
    ∀ d : StatDict, (∀ k ∈ kvs.map Prod.fst, k ∉ d.map Prod.fst) →
      (kvs.map Prod.fst).Nodup → dictUpdate d kvs = d ++ kvs := by
  induction kvs with
  | nil =>
      intro d _ _
      simp [dictUpdate]
  | cons kv rest ih =>
      intro d h hnd
      have h1 : kv.1 ∉ d.map Prod.fst := h kv.1 (by simp)
      have hnd' : kv.1 ∉ rest.map Prod.fst ∧ (rest.map Prod.fst).Nodup := by
        simp only [List.map_cons, List.nodup_cons] at hnd
        exact hnd
      have h2 : ∀ k ∈ rest.map Prod.fst, k ∉ (d ++ [kv]).map Prod.fst := by
        intro k hk
        simp only [List.map_append, List.mem_append, List.map_cons, List.map_nil,
          List.mem_singleton, not_or]
        refine ⟨h k (by simp [hk]), ?_⟩
        intro hkkv
        exact hnd'.1 (hkkv ▸ hk)
      have hstep : dictUpdate d (kv :: rest) = dictUpdate (d ++ [kv]) rest := by
        unfold dictUpdate
        simp only [List.foldl_cons]
        rw [dictInsert_fresh d kv h1]
      rw [hstep, ih (d ++ [kv]) h2 hnd'.2]
      simp

/-- The key list of a pair's cubical record is fixed by the pair name. -/
theorem cubicalStats_keys (cubO : String → String → Except String (List PersInterval))
    (ex : Bool) (c1 c2 : String) :
    (cubicalStats cubO ex c1 c2).map Prod.fst =
      statSuffixes.map (fun s => "cubical_" ++ (c1 ++ "_" ++ c2) ++ s) := by
  unfold cubicalStats
  cases cubO c1 c2 with
  | error e => exact extract_keys [] _ ex none
  | ok diag => exact extract_keys diag _ ex none

/-- The key list of a pair's witness record is fixed by the pair name. -/
theorem witnessStats_keys (sampler : List Point → ℕ → List Point)
    (wp : List Point → List Point → Except String (List PersInterval))
    (points : List Point) (labels : List String) (ex : Bool) (c1 c2 : String) :
    (witnessStats sampler wp points labels ex c1 c2).map Prod.fst =
      statSuffixes.map (fun s => "witness_" ++ (c1 ++ "_" ++ c2) ++ s) := by
  unfold witnessStats
  cases compute_witness_complex_pair sampler wp points labels c1 c2 with
  | error e => exact extract_keys [] _ ex none
  | ok r => exact extract_keys r.2 _ ex none

/-- The record of `compute_all_features` is the concatenation of the six
per-pair statistics records, in pair order, cubical before witness. -/
theorem compute_all_features_structure
    (cubO : String → String → Except String (List PersInterval))
    (sampler : List Point → ℕ → List Point)
    (wp : List Point → List Point → Except String (List PersInterval))
    (points : List Point) (labels : List String) (ex : Bool) :
    compute_all_features cubO sampler wp points labels ex =
      cubicalStats cubO ex "tumor" "immune" ++
      witnessStats sampler wp points labels ex "tumor" "immune" ++
      cubicalStats cubO ex "tumor" "stromal" ++
      witnessStats sampler wp points labels ex "tumor" "stromal" ++
      cubicalStats cubO ex "immune" "stromal" ++
      witnessStats sampler wp points labels ex "immune" "stromal" := by
  unfold compute_all_features cell_pairs
  simp only [List.foldl_cons, List.foldl_nil]
  rw [dictUpdate_fresh (cubicalStats cubO ex "tumor" "immune") []
    (by simp) (by rw [cubicalStats_keys]; decide), List.nil_append]
  rw [dictUpdate_fresh (witnessStats sampler wp points labels ex "tumor" "immune")
    (cubicalStats cubO ex "tumor" "immune")
    (by simp only [witnessStats_keys, cubicalStats_keys]; decide)
    (by rw [witnessStats_keys]; decide)]
  rw [dictUpdate_fresh (cubicalStats cubO ex "tumor" "stromal")
    (cubicalStats cubO ex "tumor" "immune" ++
      witnessStats sampler wp points labels ex "tumor" "immune")
    (by simp only [List.map_append, witnessStats_keys, cubicalStats_keys]; decide)
    (by rw [cubicalStats_keys]; decide)]
  rw [dictUpdate_fresh (witnessStats sampler wp points labels ex "tumor" "stromal")
    (cubicalStats cubO ex "tumor" "immune" ++
      witnessStats sampler wp points labels ex "tumor" "immune" ++
      cubicalStats cubO ex "tumor" "stromal")
    (by simp only [List.map_append, witnessStats_keys, cubicalStats_keys]; decide)
    (by rw [witnessStats_keys]; decide)]
  rw [dictUpdate_fresh (cubicalStats cubO ex "immune" "stromal")
    (cubicalStats cubO ex "tumor" "immune" ++
      witnessStats sampler wp points labels ex "tumor" "immune" ++
      cubicalStats cubO ex "tumor" "stromal" ++
      witnessStats sampler wp points labels ex "tumor" "stromal")
    (by simp only [List.map_append, witnessStats_keys, cubicalStats_keys]; decide)
    (by rw [cubicalStats_keys]; decide)]
  rw [dictUpdate_fresh (witnessStats sampler wp points labels ex "immune" "stromal")
    (cubicalStats cubO ex "tumor" "immune" ++
      witnessStats sampler wp points labels ex "tumor" "immune" ++
      cubicalStats cubO ex "tumor" "stromal" ++
      witnessStats sampler wp points labels ex "tumor" "stromal" ++
      cubicalStats cubO ex "immune" "stromal")
    (by simp only [List.map_append, witnessStats_keys, cubicalStats_keys]; decide)
    (by rw [witnessStats_keys]; decide)]

/-- The fixed 78-name output schema, in emission order. -/
def specKeyList : List String :=
  cell_pairs.flatMap (fun pc =>
    (["cubical", "witness"] : List String).flatMap (fun ckind =>
      statSuffixes.map (fun s => ckind ++ "_" ++ pc.1 ++ "_" ++ pc.2 ++ s)))

/-- The keys of `compute_all_features` are always exactly `specKeyList`. -/
theorem compute_all_features_keys
    (cubO : String → String → Except String (List PersInterval))
    (sampler : List Point → ℕ → List Point)
    (wp : List Point → List Point → Except String (List PersInterval))
    (points : List Point) (labels : List String) (ex : Bool) :
    (compute_all_features cubO sampler wp points labels ex).map Prod.fst = specKeyList := by
  rw [compute_all_features_structure]
  simp only [List.map_append, cubicalStats_keys, witnessStats_keys]
  decide

/-- C10: whatever the point data, the diagrams and the per-pair failures,
the record produced by `compute_all_features` has exactly the fixed key
schema: 13 statistics for each of the 6 (complex type × pair) combinations,
78 pairwise distinct keys named `{cubical|witness}_{type1}_{type2}{stat}`. -/
theorem compute_all_features_schema
    (cubO : String → String → Except String (List PersInterval))
    (sampler : List Point → ℕ → List Point)
    (wp : List Point → List Point → Except String (List PersInterval))
    (points : List Point) (labels : List String) (ex : Bool) :
    (compute_all_features cubO sampler wp points labels ex).map Prod.fst = specKeyList ∧
    specKeyList =
      cell_pairs.flatMap (fun pc =>
        (["cubical", "witness"] : List String).flatMap (fun ckind =>
          statSuffixes.map (fun s => ckind ++ "_" ++ pc.1 ++ "_" ++ pc.2 ++ s))) ∧
    specKeyList.length = 78 ∧ specKeyList.Nodup :=
  ⟨compute_all_features_keys cubO sampler wp points labels ex, rfl, by decide, by decide⟩

/-- C8: a failure in one pair's cubical (or witness) complex computation is
isolated: that pair's record is replaced by the all-missing record under
the same prefix, and the full 78-key output record is still produced. -/
theorem compute_all_features_pair_failure_isolated
    (cubO : String → String → Except String (List PersInterval))
    (sampler : List Point → ℕ → List Point)
    (wp : List Point → List Point → Except String (List PersInterval))
    (points : List Point) (labels : List String) (ex : Bool)
    (c1 c2 : String) (e : String) (hmem : (c1, c2) ∈ cell_pairs) :
    (cubO c1 c2 = Except.error e →
      ∃ pre post, compute_all_features cubO sampler wp points labels ex =
        pre ++ missingStats ("cubical_" ++ (c1 ++ "_" ++ c2)) ++ post) ∧
    (compute_witness_complex_pair sampler wp points labels c1 c2 = Except.error e →
      ∃ pre post, compute_all_features cubO sampler wp points labels ex =
        pre ++ missingStats ("witness_" ++ (c1 ++ "_" ++ c2)) ++ post) ∧
    (compute_all_features cubO sampler wp points labels ex).map Prod.fst = specKeyList := by
  have hcerr : cubO c1 c2 = Except.error e →
      cubicalStats cubO ex c1 c2 = missingStats ("cubical_" ++ (c1 ++ "_" ++ c2)) := by
    intro h
    unfold cubicalStats
    rw [h]
    rfl
  have hwerr : compute_witness_complex_pair sampler wp points labels c1 c2 = Except.error e →
      witnessStats sampler wp points labels ex c1 c2 =
        missingStats ("witness_" ++ (c1 ++ "_" ++ c2)) := by
    intro h
    unfold witnessStats
    rw [h]
    rfl
  refine ⟨?_, ?_, compute_all_features_keys cubO sampler wp points labels ex⟩ <;>
    intro h <;> rw [compute_all_features_structure] <;>
    simp only [cell_pairs, List.mem_cons, List.mem_singleton, Prod.mk.injEq,
      List.not_mem_nil, or_false] at hmem <;>
    rcases hmem with ⟨h1, h2⟩ | ⟨h1, h2⟩ | ⟨h1, h2⟩ <;> subst h1 <;> subst h2
  · refine ⟨[], witnessStats sampler wp points labels ex "tumor" "immune" ++
      cubicalStats cubO ex "tumor" "stromal" ++
      witnessStats sampler wp points labels ex "tumor" "stromal" ++
      cubicalStats cubO ex "immune" "stromal" ++
      witnessStats sampler wp points labels ex "immune" "stromal", ?_⟩
    rw [hcerr h]
    all_goals simp [List.append_assoc]
  · refine ⟨cubicalStats cubO ex "tumor" "immune" ++
      witnessStats sampler wp points labels ex "tumor" "immune",
      witnessStats sampler wp points labels ex "tumor" "stromal" ++
      cubicalStats cubO ex "immune" "stromal" ++
      witnessStats sampler wp points labels ex "immune" "stromal", ?_⟩
    rw [hcerr h]
    all_goals simp [List.append_assoc]
  · refine ⟨cubicalStats cubO ex "tumor" "immune" ++
      witnessStats sampler wp points labels ex "tumor" "immune" ++
      cubicalStats cubO ex "tumor" "stromal" ++
      witnessStats sampler wp points labels ex "tumor" "stromal",
      witnessStats sampler wp points labels ex "immune" "stromal", ?_⟩
    rw [hcerr h]
  · refine ⟨cubicalStats cubO ex "tumor" "immune",
      cubicalStats cubO ex "tumor" "stromal" ++
      witnessStats sampler wp points labels ex "tumor" "stromal" ++
      cubicalStats cubO ex "immune" "stromal" ++
      witnessStats sampler wp points labels ex "immune" "stromal", ?_⟩
    rw [hwerr h]
    all_goals simp [List.append_assoc]
  · refine ⟨cubicalStats cubO ex "tumor" "immune" ++
      witnessStats sampler wp points labels ex "tumor" "immune" ++
      cubicalStats cubO ex "tumor" "stromal",
      cubicalStats cubO ex "immune" "stromal" ++
      witnessStats sampler wp points labels ex "immune" "stromal", ?_⟩
    rw [hwerr h]
    all_goals simp [List.append_assoc]
  · refine ⟨cubicalStats cubO ex "tumor" "immune" ++
      witnessStats sampler wp points labels ex "tumor" "immune" ++
      cubicalStats cubO ex "tumor" "stromal" ++
      witnessStats sampler wp points labels ex "tumor" "stromal" ++
      cubicalStats cubO ex "immune" "stromal", [], ?_⟩
    rw [hwerr h]
    all_goals simp [List.append_assoc]

/-- C8 witness: with an oracle that fails on every pair, the record of the
("tumor", "immune") pair degrades to the all-missing record while the
output record is still produced with the full schema. -/
theorem compute_all_features_pair_failure_isolated_witness :
    (∃ pre post, compute_all_features (fun _ _ => Except.error "boom")
        (fun pts n => pts.take n) (fun _ _ => Except.ok []) samplePts sampleLbls true =
      pre ++ missingStats ("cubical_" ++ ("tumor" ++ "_" ++ "immune")) ++ post) ∧
    (compute_all_features (fun _ _ => Except.error "boom") (fun pts n => pts.take n)
        (fun _ _ => Except.ok []) samplePts sampleLbls true).map Prod.fst = specKeyList := by
  have h := compute_all_features_pair_failure_isolated (fun _ _ => Except.error "boom")
    (fun pts n => pts.take n) (fun _ _ => Except.ok []) samplePts sampleLbls true
    "tumor" "immune" "boom" (by decide)
  exact ⟨h.1 rfl, h.2.2⟩

/-- The key list of a pair's per-dimension cubical records. -/
theorem cubicalDimStats_keys (cubO : String → String → Except String (List PersInterval))
    (ex : Bool) (c1 c2 : String) (dims : List ℕ) :
    (cubicalDimStats cubO ex c1 c2 dims).map Prod.fst =
      dims.flatMap (fun dim => statSuffixes.map
        (fun s => "cubical_" ++ (c1 ++ "_" ++ c2) ++ "_h" ++ toString dim ++ s)) := by
  unfold cubicalDimStats
  cases cubO c1 c2 with
  | error e =>
      rw [List.map_flatMap]
      simp only [extract_keys]
  | ok diag =>
      rw [List.map_flatMap]
      simp only [extract_keys]

/-- The key list of a pair's per-dimension witness records. -/
theorem witnessDimStats_keys (sampler : List Point → ℕ → List Point)
    (wp : List Point → List Point → Except String (List PersInterval))
    (points : List Point) (labels : List String) (ex : Bool) (c1 c2 : String)
    (dims : List ℕ) :
    (witnessDimStats sampler wp points labels ex c1 c2 dims).map Prod.fst =
      dims.flatMap (fun dim => statSuffixes.map
        (fun s => "witness_" ++ (c1 ++ "_" ++ c2) ++ "_h" ++ toString dim ++ s)) := by
  unfold witnessDimStats
  cases compute_witness_complex_pair sampler wp points labels c1 c2 with
  | error e =>
      rw [List.map_flatMap]
      simp only [extract_keys]
  | ok r =>
      rw [List.map_flatMap]
      simp only [extract_keys]

/-- With the default dimensions [0, 1], the record of
`compute_features_by_dimension` is the concatenation of the six per-pair
per-dimension blocks, in pair order, cubical before witness. -/
theorem by_dimension_structure
    (cubO : String → String → Except String (List PersInterval))
    (sampler : List Point → ℕ → List Point)
    (wp : List Point → List Point → Except String (List PersInterval))
    (points : List Point) (labels : List String) (ex : Bool) :
    compute_features_by_dimension cubO sampler wp points labels [0, 1] ex =
      cubicalDimStats cubO ex "tumor" "immune" [0, 1] ++
      witnessDimStats sampler wp points labels ex "tumor" "immune" [0, 1] ++
      cubicalDimStats cubO ex "tumor" "stromal" [0, 1] ++
      witnessDimStats sampler wp points labels ex "tumor" "stromal" [0, 1] ++
      cubicalDimStats cubO ex "immune" "stromal" [0, 1] ++
      witnessDimStats sampler wp points labels ex "immune" "stromal" [0, 1] := by
  unfold compute_features_by_dimension cell_pairs
  simp only [List.foldl_cons, List.foldl_nil]
  rw [dictUpdate_fresh (cubicalDimStats cubO ex "tumor" "immune" [0, 1]) []
    (by simp) (by rw [cubicalDimStats_keys]; decide), List.nil_append]
  rw [dictUpdate_fresh (witnessDimStats sampler wp points labels ex "tumor" "immune" [0, 1])
    (cubicalDimStats cubO ex "tumor" "immune" [0, 1])
    (by simp only [witnessDimStats_keys, cubicalDimStats_keys]; decide)
    (by rw [witnessDimStats_keys]; decide)]
  rw [dictUpdate_fresh (cubicalDimStats cubO ex "tumor" "stromal" [0, 1])
    (cubicalDimStats cubO ex "tumor" "immune" [0, 1] ++
      witnessDimStats sampler wp points labels ex "tumor" "immune" [0, 1])
    (by simp only [List.map_append, witnessDimStats_keys, cubicalDimStats_keys]; decide)
    (by rw [cubicalDimStats_keys]; decide)]
  rw [dictUpdate_fresh (witnessDimStats sampler wp points labels ex "tumor" "stromal" [0, 1])
    (cubicalDimStats cubO ex "tumor" "immune" [0, 1] ++
      witnessDimStats sampler wp points labels ex "tumor" "immune" [0, 1] ++
      cubicalDimStats cubO ex "tumor" "stromal" [0, 1])
    (by simp only [List.map_append, witnessDimStats_keys, cubicalDimStats_keys]; decide)
    (by rw [witnessDimStats_keys]; decide)]
  rw [dictUpdate_fresh (cubicalDimStats cubO ex "immune" "stromal" [0, 1])
    (cubicalDimStats cubO ex "tumor" "immune" [0, 1] ++
      witnessDimStats sampler wp points labels ex "tumor" "immune" [0, 1] ++
      cubicalDimStats cubO ex "tumor" "stromal" [0, 1] ++
      witnessDimStats sampler wp points labels ex "tumor" "stromal" [0, 1])
    (by simp only [List.map_append, witnessDimStats_keys, cubicalDimStats_keys]; decide)
    (by rw [cubicalDimStats_keys]; decide)]
  rw [dictUpdate_fresh (witnessDimStats sampler wp points labels ex "immune" "stromal" [0, 1])
    (cubicalDimStats cubO ex "tumor" "immune" [0, 1] ++
      witnessDimStats sampler wp points labels ex "tumor" "immune" [0, 1] ++
      cubicalDimStats cubO ex "tumor" "stromal" [0, 1] ++
      witnessDimStats sampler wp points labels ex "tumor" "stromal" [0, 1] ++
      cubicalDimStats cubO ex "immune" "stromal" [0, 1])
    (by simp only [List.map_append, witnessDimStats_keys, cubicalDimStats_keys]; decide)
    (by rw [witnessDimStats_keys]; decide)]

/-- C9: for a pair whose labeled subsets are insufficient (fewer than 3
points), the witness leg of `compute_features_by_dimension` emits one
all-missing statistics record per requested dimension — the insufficient
empty diagram filters to an empty per-dimension diagram for every
dimension — and with the default dimensions [0, 1] the assembled record
contains those two all-missing records under the prefixes
`witness_{pair}_h0` and `witness_{pair}_h1`. -/
theorem by_dimension_insufficient_missing
    (cubO : String → String → Except String (List PersInterval))
    (sampler : List Point → ℕ → List Point)
    (wp : List Point → List Point → Except String (List PersInterval))
    (points : List Point) (labels : List String) (ex : Bool)
    (c1 c2 : String) (dims : List ℕ) (hmem : (c1, c2) ∈ cell_pairs)
    (h : (ptsOfLabel points labels c1).length < 3 ∨
      (ptsOfLabel points labels c2).length < 3) :
    witnessDimStats sampler wp points labels ex c1 c2 dims =
      dims.flatMap (fun dim =>
        missingStats ("witness_" ++ (c1 ++ "_" ++ c2) ++ "_h" ++ toString dim)) ∧
    (∃ pre post, compute_features_by_dimension cubO sampler wp points labels [0, 1] ex =
      pre ++ (missingStats ("witness_" ++ (c1 ++ "_" ++ c2) ++ "_h" ++ toString 0) ++
        missingStats ("witness_" ++ (c1 ++ "_" ++ c2) ++ "_h" ++ toString 1)) ++ post) := by
  have hok : compute_witness_complex_pair sampler wp points labels c1 c2 =
      Except.ok (none, []) := by
    unfold compute_witness_complex_pair
    rw [if_pos h]
  have h1 : ∀ dims' : List ℕ, witnessDimStats sampler wp points labels ex c1 c2 dims' =
      dims'.flatMap (fun dim =>
        missingStats ("witness_" ++ (c1 ++ "_" ++ c2) ++ "_h" ++ toString dim)) := by
    intro dims'
    unfold witnessDimStats
    rw [hok]
    simp only [dimFilter, List.filter_nil, extract_nil]
  have h2 : witnessDimStats sampler wp points labels ex c1 c2 [0, 1] =
      missingStats ("witness_" ++ (c1 ++ "_" ++ c2) ++ "_h" ++ toString 0) ++
        missingStats ("witness_" ++ (c1 ++ "_" ++ c2) ++ "_h" ++ toString 1) := by
    rw [h1 [0, 1]]
    simp
  refine ⟨h1 dims, ?_⟩
  rw [by_dimension_structure]
  simp only [cell_pairs, List.mem_cons, List.mem_singleton, Prod.mk.injEq,
    List.not_mem_nil, or_false] at hmem
  rcases hmem with ⟨e1, e2⟩ | ⟨e1, e2⟩ | ⟨e1, e2⟩ <;> subst e1 <;> subst e2
  · refine ⟨cubicalDimStats cubO ex "tumor" "immune" [0, 1],
      cubicalDimStats cubO ex "tumor" "stromal" [0, 1] ++
      witnessDimStats sampler wp points labels ex "tumor" "stromal" [0, 1] ++
      cubicalDimStats cubO ex "immune" "stromal" [0, 1] ++
      witnessDimStats sampler wp points labels ex "immune" "stromal" [0, 1], ?_⟩
    rw [h2]
    all_goals simp [List.append_assoc]
  · refine ⟨cubicalDimStats cubO ex "tumor" "immune" [0, 1] ++
      witnessDimStats sampler wp points labels ex "tumor" "immune" [0, 1] ++
      cubicalDimStats cubO ex "tumor" "stromal" [0, 1],
      cubicalDimStats cubO ex "immune" "stromal" [0, 1] ++
      witnessDimStats sampler wp points labels ex "immune" "stromal" [0, 1], ?_⟩
    rw [h2]
    all_goals simp [List.append_assoc]
  · refine ⟨cubicalDimStats cubO ex "tumor" "immune" [0, 1] ++
      witnessDimStats sampler wp points labels ex "tumor" "immune" [0, 1] ++
      cubicalDimStats cubO ex "tumor" "stromal" [0, 1] ++
      witnessDimStats sampler wp points labels ex "tumor" "stromal" [0, 1] ++
      cubicalDimStats cubO ex "immune" "stromal" [0, 1], [], ?_⟩
    rw [h2]
    all_goals simp [List.append_assoc]

/-- C9 witness: with no points at all, the ("tumor", "immune") pair is
insufficient and the per-dimension all-missing records appear. -/
theorem by_dimension_insufficient_missing_witness :
    witnessDimStats (fun pts n => pts.take n) (fun _ _ => Except.ok []) [] [] true
        "tumor" "immune" [0, 1] =
      ([0, 1] : List ℕ).flatMap (fun dim =>
        missingStats ("witness_" ++ ("tumor" ++ "_" ++ "immune") ++ "_h" ++ toString dim)) ∧
    (∃ pre post, compute_features_by_dimension (fun _ _ => Except.ok [])
        (fun pts n => pts.take n) (fun _ _ => Except.ok []) [] [] [0, 1] true =
      pre ++ (missingStats ("witness_" ++ ("tumor" ++ "_" ++ "immune") ++ "_h" ++ toString 0) ++
        missingStats ("witness_" ++ ("tumor" ++ "_" ++ "immune") ++ "_h" ++ toString 1)) ++
        post) :=
  by_dimension_insufficient_missing (fun _ _ => Except.ok []) (fun pts n => pts.take n)
    (fun _ _ => Except.ok []) [] [] true "tumor" "immune" [0, 1] (by decide)
    (Or.inl (by simp [ptsOfLabel]))

end TopoFeature
